import Mathlib

/-
Verification development for the capacitance-measurement module of the
sundial_greenlight cable tester (src/arduino/cable_tester/capacitance.h).

Modelling conventions:
 - Arduino float arithmetic is modelled exactly over the rationals.
 - The type unsigned long (32-bit on AVR) is modelled as a natural number
   reduced modulo 2^32 at every operation where the C code can wrap.
 - The hardware environment is an oracle: micros k is the value returned by
   the k-th call to micros(), adc k the value returned by the k-th call to
   analogRead(CAP_SENSE_PIN).
 - Every pin write, pin-mode change, delay, ADC sample and serial print is
   recorded in an ordered trace of actions, so that the restore-to-idle
   invariants are statements about the trace and the pin state it induces.
 - The busy-wait polling loop of measureChargeTime is given a fuel bound:
   on a real board micros() is monotone modulo wrap, so the loop guard
   fails after finitely many iterations; exhausting the fuel takes the same
   restore-and-return-0 exit path as the timeout exit of the source.
-/

namespace Greenlight

/-- Logic level of a digital pin, LOW or HIGH in the Arduino API. -/
inductive Level where
  | low
  | high
  deriving DecidableEq

/-- Direction of a digital pin as set by pinMode: INPUT (high impedance) or OUTPUT. -/
inductive PinDir where
  | input
  | output
  deriving DecidableEq

/-- The pins the capacitance module touches: the charge and discharge pins,
the two continuity output pins set to high impedance during the test, and the
two relays configured by runCapacitanceTest and calibrateStrayCapacitance. -/
inductive Pin where
  | capCharge
  | capDischarge
  | contSleeve
  | contTip
  | relayK1K2
  | relayK4
  deriving DecidableEq

/-- CAP_CHARGE_RESISTOR from capacitance.h: the 2.2 MOhm charging resistor. -/
def CAP_CHARGE_RESISTOR : ℚ := 2200000

/-- CAP_ADC_THRESHOLD from capacitance.h: 512, half of the 1024 ADC full scale. -/
def CAP_ADC_THRESHOLD : ℕ := 512

/-- CAP_TIMEOUT_US from capacitance.h: 100000 microseconds (100 ms). -/
def CAP_TIMEOUT_US : ℕ := 100000

/-- CAP_DISCHARGE_TIME_MS from capacitance.h: 10 ms discharge settle time. -/
def CAP_DISCHARGE_TIME_MS : ℕ := 10

/-- CAP_NUM_SAMPLES from capacitance.h: number of measurements averaged. -/
def CAP_NUM_SAMPLES : ℕ := 5

/-- CAP_STRAY_PF from capacitance.h: stray fixture capacitance subtracted
from every measurement, in picofarads. -/
def CAP_STRAY_PF : ℚ := 20

/-- Modulus of the AVR unsigned long type used for micros() timestamps. -/
def UINT32_MOD : ℕ := 2 ^ 32

/-- One observable effect of the firmware: a pin write, a pin-mode change,
a call of the external resetCircuit(), a delay, one ADC sample, or a serial
print of a string, a float value, or an unsigned value. -/
inductive Action where
  | digitalWrite : Pin → Level → Action
  | pinMode : Pin → PinDir → Action
  | resetCircuit : Action
  | delayMs : ℕ → Action
  | analogRead : Action
  | serialStr : String → Action
  | serialNum : ℚ → Action
  | serialNat : ℕ → Action
  deriving DecidableEq

/-- Hardware oracle: micros k is the raw value produced by the k-th call of
micros(), adc k the reading produced by the k-th call of analogRead. -/
structure Env where
  micros : ℕ → ℕ
  adc : ℕ → ℕ

/-- Value of the k-th micros() call as the 32-bit counter the firmware sees. -/
def microsAt (env : Env) (k : ℕ) : ℕ := env.micros k % UINT32_MOD

/-- Result of one measureChargeTime call: the returned microsecond count
(0 on timeout), the trace of effects, and the next micros and adc indices. -/
structure ChargeTimeOut where
  ret : ℕ
  trace : List Action
  mIdx : ℕ
  aIdx : ℕ

/-- Trace of dischargeCable(): stop charging, pull the discharge pin low,
wait CAP_DISCHARGE_TIME_MS for a full discharge. -/
def dischargeTrace : List Action :=
  [Action.digitalWrite Pin.capCharge Level.low,
   Action.digitalWrite Pin.capDischarge Level.low,
   Action.delayMs CAP_DISCHARGE_TIME_MS]

/-- Trace of the common exit code of measureChargeTime: stop charging and
return the discharge pin to output low. -/
def chargeRestore : List Action :=
  [Action.digitalWrite Pin.capCharge Level.low,
   Action.pinMode Pin.capDischarge PinDir.output,
   Action.digitalWrite Pin.capDischarge Level.low]

/-- The polling loop of measureChargeTime: while micros() < timeout, sample
the ADC; at or above CAP_ADC_THRESHOLD return micros() - startTime in 32-bit
arithmetic after restoring the pins; when the guard fails, restore and
return 0.  Arguments after the deadline are fuel, micros index, adc index. -/
def pollLoop (env : Env) (startTime tmo : ℕ) : ℕ → ℕ → ℕ → ChargeTimeOut
  | 0, m, a => ⟨0, chargeRestore, m, a⟩
  | fuel + 1, m, a =>
    if microsAt env m < tmo then
      if CAP_ADC_THRESHOLD ≤ env.adc a then
        ⟨(microsAt env (m + 1) + UINT32_MOD - startTime) % UINT32_MOD,
         Action.analogRead :: chargeRestore, m + 2, a + 1⟩
      else
        let r := pollLoop env startTime tmo fuel (m + 1) (a + 1)
        ⟨r.ret, Action.analogRead :: r.trace, r.mIdx, r.aIdx⟩
    else
      ⟨0, chargeRestore, m + 1, a⟩

/-- measureChargeTime from capacitance.h: discharge, set the discharge pin
to high impedance, record the start time, drive the charge pin high, poll
until threshold or timeout; returns elapsed microseconds, or 0 on timeout. -/
def measureChargeTime (env : Env) (fuel m a : ℕ) : ChargeTimeOut :=
  let startTime := microsAt env m
  let r := pollLoop env startTime ((startTime + CAP_TIMEOUT_US) % UINT32_MOD) fuel (m + 1) a
  ⟨r.ret,
   dischargeTrace ++
     [Action.pinMode Pin.capDischarge PinDir.input,
      Action.digitalWrite Pin.capCharge Level.high] ++ r.trace,
   r.mIdx, r.aIdx⟩

/-- calculateCapacitance from capacitance.h, generalized over the stray
capacitance constant so that the calibration replacement property can be
stated; the source instantiates the constant with CAP_STRAY_PF. -/
def calculateCapacitanceWith (strayPf : ℚ) (chargeTimeUs : ℕ) : ℚ :=
  if chargeTimeUs = 0 then 0
  else
    let timeSeconds : ℚ := (chargeTimeUs : ℚ) / 1000000
    let capacitanceFarads : ℚ := timeSeconds / (CAP_CHARGE_RESISTOR * (693 / 1000))
    let capacitancePf : ℚ := capacitanceFarads * 10 ^ 12
    let corrected : ℚ := capacitancePf - strayPf
    if corrected < 0 then 0 else corrected

/-- calculateCapacitance from capacitance.h: picofarads from a charge time in
microseconds, with the fixture stray capacitance subtracted and negative
results clamped to zero; a zero charge time returns 0.0 immediately. -/
def calculateCapacitance (chargeTimeUs : ℕ) : ℚ :=
  calculateCapacitanceWith CAP_STRAY_PF chargeTimeUs

/-- Raw, uncorrected capacitance in picofarads derived from a charge time in
microseconds: time in seconds over R times ln 2, scaled to picofarads. -/
def rawCapacitancePf (t : ℚ) : ℚ :=
  t / 1000000 / (CAP_CHARGE_RESISTOR * (693 / 1000)) * 10 ^ 12

/-- CapacitanceResult from capacitance.h. -/
structure CapacitanceResult where
  valid : Bool
  capacitance_pf : ℚ
  charge_time_us : ℕ
  num_samples : ℕ
  deriving DecidableEq

/-- Accumulator of the sampling loop of measureCapacitance: running total of
valid charge times (32-bit), count of valid samples, trace so far, and the
oracle indices. -/
structure MeasAcc where
  totalTime : ℕ
  validSamples : ℕ
  trace : List Action
  mIdx : ℕ
  aIdx : ℕ

/-- The for loop of measureCapacitance: run measureChargeTime n more times,
accumulating strictly positive charge times and their count, and appending
each measurement trace followed by the 10 ms inter-sample delay. -/
def measLoop (env : Env) (fuel : ℕ) : ℕ → MeasAcc → MeasAcc
  | 0, acc => acc
  | n + 1, acc =>
    let r := measureChargeTime env fuel acc.mIdx acc.aIdx
    measLoop env fuel n
      { totalTime := if 0 < r.ret then (acc.totalTime + r.ret) % UINT32_MOD else acc.totalTime
        validSamples := if 0 < r.ret then acc.validSamples + 1 else acc.validSamples
        trace := acc.trace ++ r.trace ++ [Action.delayMs 10]
        mIdx := r.mIdx
        aIdx := r.aIdx }

/-- Result of measureCapacitance together with its trace and oracle indices. -/
structure MeasureOut where
  result : CapacitanceResult
  trace : List Action
  mIdx : ℕ
  aIdx : ℕ

/-- measureCapacitance from capacitance.h: take CAP_NUM_SAMPLES charge-time
samples, discard the zero (timed out) ones, average the valid ones, and when
at least one is valid compute the capacitance once from the averaged time;
otherwise return an invalid result. -/
def measureCapacitance (env : Env) (fuel m a : ℕ) : MeasureOut :=
  let acc := measLoop env fuel CAP_NUM_SAMPLES ⟨0, 0, [], m, a⟩
  if 0 < acc.validSamples then
    let avg := acc.totalTime / acc.validSamples
    ⟨⟨true, calculateCapacitance avg, avg, acc.validSamples⟩, acc.trace, acc.mIdx, acc.aIdx⟩
  else
    ⟨⟨false, 0, 0, 0⟩, acc.trace, acc.mIdx, acc.aIdx⟩

/-- The list of the n successive measureChargeTime return values, with the
oracle indices threaded exactly as in the sampling loop. -/
def sampleList (env : Env) (fuel : ℕ) : ℕ → ℕ → ℕ → List ℕ
  | 0, _, _ => []
  | n + 1, m, a =>
    let r := measureChargeTime env fuel m a
    r.ret :: sampleList env fuel n r.mIdx r.aIdx

/-- Trace of the test-mode setup at the top of runCapacitanceTest. -/
def capSetupTrace : List Action :=
  [Action.digitalWrite Pin.relayK1K2 Level.high,
   Action.digitalWrite Pin.relayK4 Level.low,
   Action.pinMode Pin.contSleeve PinDir.input,
   Action.pinMode Pin.contTip PinDir.input,
   Action.delayMs 20]

/-- Trace of the restore block shared by runCapacitanceTest and the
calibration routine: continuity pins back to output low, then resetCircuit. -/
def capRestoreTrace : List Action :=
  [Action.pinMode Pin.contSleeve PinDir.output,
   Action.digitalWrite Pin.contSleeve Level.low,
   Action.pinMode Pin.contTip PinDir.output,
   Action.digitalWrite Pin.contTip Level.low,
   Action.resetCircuit]

/-- runCapacitanceTest from capacitance.h: configure the relays, measure,
restore the fixture, then report; returns whether the corrected capacitance
lies in the 50 to 2000 pF acceptance window, and false on an invalid
(timed out) measurement. -/
def runCapacitanceTest (env : Env) (fuel m a : ℕ) : Bool × List Action :=
  let r := measureCapacitance env fuel m a
  let core := capSetupTrace ++ r.trace ++ capRestoreTrace
  if r.result.valid then
    let inRange : Bool :=
      decide (50 ≤ r.result.capacitance_pf ∧ r.result.capacitance_pf ≤ 2000)
    (inRange,
     core ++
       [Action.serialStr (r"CAP:"),
        Action.serialStr (if inRange then (r"PASS") else (r"WARN")),
        Action.serialStr (r":PF:"),
        Action.serialNum r.result.capacitance_pf,
        Action.serialStr (r":TIME_US:"),
        Action.serialNat r.result.charge_time_us,
        Action.serialStr (r":SAMPLES:"),
        Action.serialNat r.result.num_samples])
  else
    (false, core ++ [Action.serialStr (r"CAP:FAIL:TIMEOUT:No charge detected")])

/-- Trace of the banner and relay setup at the top of
calibrateStrayCapacitance. -/
def calPreTrace : List Action :=
  [Action.serialStr (r"CAP_CAL:Starting stray capacitance calibration"),
   Action.serialStr (r"CAP_CAL:Ensure NO cable is connected"),
   Action.delayMs 2000,
   Action.digitalWrite Pin.relayK1K2 Level.high,
   Action.digitalWrite Pin.relayK4 Level.low,
   Action.pinMode Pin.contSleeve PinDir.input,
   Action.pinMode Pin.contTip PinDir.input,
   Action.delayMs 20]

/-- calibrateStrayCapacitance from capacitance.h: same measurement as the
test, after which the subtracted stray constant is added back and the sum is
reported as the measured stray capacitance; the first component is the
reported value, none when the measurement is invalid. -/
def calibrateStrayCapacitance (env : Env) (fuel m a : ℕ) : Option ℚ × List Action :=
  let r := measureCapacitance env fuel m a
  let core := calPreTrace ++ r.trace ++ capRestoreTrace
  if r.result.valid then
    let rawPf := r.result.capacitance_pf + CAP_STRAY_PF
    (some rawPf,
     core ++
       [Action.serialStr (r"CAP_CAL:Measured stray capacitance: "),
        Action.serialNum rawPf,
        Action.serialStr (r" pF"),
        Action.serialStr (r"CAP_CAL:Update CAP_STRAY_PF to "),
        Action.serialNum rawPf,
        Action.serialStr (r" in capacitance.h")])
  else
    (none, core ++ [Action.serialStr (r"CAP_CAL:FAILED - Could not measure")])

/-- State of the fixture pins the capacitance module touches, plus a flag
recording whether the external resetCircuit() has been invoked. -/
structure FixtureState where
  capChargeLevel : Level
  capDischargeDir : PinDir
  capDischargeLevel : Level
  contSleeveDir : PinDir
  contSleeveLevel : Level
  contTipDir : PinDir
  contTipLevel : Level
  k1k2Level : Level
  k4Level : Level
  resetDone : Bool
  deriving DecidableEq

/-- Effect of one action on the fixture state; serial prints, delays and ADC
samples leave the pins unchanged. -/
def applyAction (s : FixtureState) : Action → FixtureState
  | Action.digitalWrite Pin.capCharge l => { s with capChargeLevel := l }
  | Action.digitalWrite Pin.capDischarge l => { s with capDischargeLevel := l }
  | Action.digitalWrite Pin.contSleeve l => { s with contSleeveLevel := l }
  | Action.digitalWrite Pin.contTip l => { s with contTipLevel := l }
  | Action.digitalWrite Pin.relayK1K2 l => { s with k1k2Level := l }
  | Action.digitalWrite Pin.relayK4 l => { s with k4Level := l }
  | Action.pinMode Pin.capDischarge d => { s with capDischargeDir := d }
  | Action.pinMode Pin.contSleeve d => { s with contSleeveDir := d }
  | Action.pinMode Pin.contTip d => { s with contTipDir := d }
  | Action.pinMode _ _ => s
  | Action.resetCircuit => { s with resetDone := true }
  | _ => s

/-- Fixture state after running a trace of actions from a given state. -/
def applyTrace (s : FixtureState) (t : List Action) : FixtureState :=
  t.foldl applyAction s

/-- The restored idle topology the claims require after a capacitance
measurement: charge pin low, discharge pin output low, both continuity pins
output low, and resetCircuit invoked. -/
def RestoredIdle (s : FixtureState) : Prop :=
  s.capChargeLevel = Level.low ∧
  s.capDischargeDir = PinDir.output ∧
  s.capDischargeLevel = Level.low ∧
  s.contSleeveDir = PinDir.output ∧
  s.contSleeveLevel = Level.low ∧
  s.contTipDir = PinDir.output ∧
  s.contTipLevel = Level.low ∧
  s.resetDone = true

/-- Whether an action is a serial report. -/
def isReport : Action → Bool
  | Action.serialStr _ => true
  | Action.serialNum _ => true
  | Action.serialNat _ => true
  | _ => false

/-- Oracle on which every ADC sample reads full scale and the clock advances
one microsecond per call; each measurement crosses the threshold after one
poll with an elapsed time of 2 microseconds. -/
def envAllHigh : Env := ⟨fun k => k, fun _ => 1023⟩

/-- Oracle on which the ADC always reads 0, so no sample ever crosses the
threshold. -/
def envAllLow : Env := ⟨fun k => k, fun _ => 0⟩

/-- Oracle whose clock starts 50000 microseconds before the 32-bit wrap. -/
def envWrap : Env := ⟨fun k => 4294917296 + k, fun _ => 1023⟩

/-- Oracle whose clock is frozen, so a threshold crossing happens with an
elapsed time of zero microseconds. -/
def envFrozen : Env := ⟨fun _ => 7, fun _ => 1023⟩

/-- Oracle whose clock advances 200000 microseconds per call, so the first
poll-loop guard already finds the deadline passed. -/
def envLate : Env := ⟨fun k => 200000 * k, fun _ => 1023⟩

/-- Oracle whose clock advances 40 microseconds per call; each measurement
crosses the threshold with an elapsed time of 80 microseconds. -/
def envSlow : Env := ⟨fun k => 40 * k, fun _ => 1023⟩

/-- An arbitrary scrambled initial fixture state used by witnesses. -/
def scrambledState : FixtureState :=
  ⟨Level.high, PinDir.input, Level.high, PinDir.input, Level.high,
   PinDir.input, Level.high, Level.high, Level.high, false⟩

/-- The sublist of strictly positive (valid) charge times. -/
def validTimes (l : List ℕ) : List ℕ := l.filter (fun t => decide (0 < t))

theorem rawCapacitancePf_eq (t : ℚ) : rawCapacitancePf t = 5000 * t / 7623 := by
  unfold rawCapacitancePf CAP_CHARGE_RESISTOR
  ring

theorem calculateCapacitanceWith_eq (s : ℚ) (t : ℕ) (ht : t ≠ 0) :
    calculateCapacitanceWith s t = max 0 (rawCapacitancePf (t : ℚ) - s) := by
  unfold calculateCapacitanceWith rawCapacitancePf
  rw [if_neg ht]
  dsimp only
  split_ifs with h
  · exact (max_eq_left (le_of_lt h)).symm
  · exact (max_eq_right (not_lt.mp h)).symm

theorem rawCapacitancePf_strictMono : StrictMono rawCapacitancePf := by
  intro x y hxy
  rw [rawCapacitancePf_eq, rawCapacitancePf_eq]
  have h : 5000 * x < 5000 * y := by linarith
  exact (div_lt_div_iff_of_pos_right (by norm_num)).mpr h

theorem UINT32_MOD_pos : 0 < UINT32_MOD := by
  unfold UINT32_MOD
  positivity

theorem foldl_mod_add (l : List ℕ) :
    ∀ s : ℕ, s < UINT32_MOD →
      l.foldl (fun x t => (x + t) % UINT32_MOD) s = (s + l.sum) % UINT32_MOD := by
  induction l with
  | nil =>
    intro s hs
    simp [Nat.mod_eq_of_lt hs]
  | cons t rest ih =>
    intro s hs
    have hlt : (s + t) % UINT32_MOD < UINT32_MOD := Nat.mod_lt _ UINT32_MOD_pos
    simp only [List.foldl_cons, List.sum_cons, ih _ hlt, Nat.mod_add_mod]
    ring_nf

theorem measLoop_counts (env : Env) (fuel : ℕ) :
    ∀ (n : ℕ) (acc : MeasAcc),
      (measLoop env fuel n acc).validSamples =
        acc.validSamples + (validTimes (sampleList env fuel n acc.mIdx acc.aIdx)).length ∧
      (measLoop env fuel n acc).totalTime =
        (validTimes (sampleList env fuel n acc.mIdx acc.aIdx)).foldl
          (fun x t => (x + t) % UINT32_MOD) acc.totalTime := by
  intro n
  induction n with
  | zero =>
    intro acc
    simp [measLoop, sampleList, validTimes]
  | succ n ih =>
    intro acc
    by_cases h : 0 < (measureChargeTime env fuel acc.mIdx acc.aIdx).ret
    · simpa [measLoop, sampleList, validTimes, h, add_comm, add_assoc, add_left_comm] using
        ih { totalTime := (acc.totalTime + (measureChargeTime env fuel acc.mIdx acc.aIdx).ret) %
               UINT32_MOD
             validSamples := acc.validSamples + 1
             trace := acc.trace ++ (measureChargeTime env fuel acc.mIdx acc.aIdx).trace ++
               [Action.delayMs 10]
             mIdx := (measureChargeTime env fuel acc.mIdx acc.aIdx).mIdx
             aIdx := (measureChargeTime env fuel acc.mIdx acc.aIdx).aIdx }
    · simpa [measLoop, sampleList, validTimes, h] using
        ih { totalTime := acc.totalTime
             validSamples := acc.validSamples
             trace := acc.trace ++ (measureChargeTime env fuel acc.mIdx acc.aIdx).trace ++
               [Action.delayMs 10]
             mIdx := (measureChargeTime env fuel acc.mIdx acc.aIdx).mIdx
             aIdx := (measureChargeTime env fuel acc.mIdx acc.aIdx).aIdx }

theorem applyTrace_append (s : FixtureState) (t₁ t₂ : List Action) :
    applyTrace s (t₁ ++ t₂) = applyTrace (applyTrace s t₁) t₂ := by
  unfold applyTrace
  exact List.foldl_append applyAction s t₁ t₂

theorem applyTrace_replicate_analog (s : FixtureState) (k : ℕ) :
    applyTrace s (List.replicate k Action.analogRead) = s := by
  induction k with
  | zero => rfl
  | succ k ih =>
    rw [List.replicate_succ]
    exact ih

theorem pollLoop_trace_shape (env : Env) (st tmo : ℕ) :
    ∀ fuel m a, ∃ k,
      (pollLoop env st tmo fuel m a).trace = List.replicate k Action.analogRead ++ chargeRestore := by
  intro fuel
  induction fuel with
  | zero =>
    intro m a
    exact ⟨0, rfl⟩
  | succ fuel ih =>
    intro m a
    unfold pollLoop
    split_ifs with hg ht
    · exact ⟨1, rfl⟩
    · obtain ⟨k, hk⟩ := ih (m + 1) (a + 1)
      refine ⟨k + 1, ?_⟩
      simp [hk, List.replicate_succ]
    · exact ⟨0, rfl⟩

theorem measureChargeTime_trace_shape (env : Env) (fuel m a : ℕ) :
    ∃ k, (measureChargeTime env fuel m a).trace =
      dischargeTrace ++
        [Action.pinMode Pin.capDischarge PinDir.input,
         Action.digitalWrite Pin.capCharge Level.high] ++
        (List.replicate k Action.analogRead ++ chargeRestore) := by
  obtain ⟨k, hk⟩ := pollLoop_trace_shape env (microsAt env m)
    ((microsAt env m + CAP_TIMEOUT_US) % UINT32_MOD) fuel (m + 1) a
  exact ⟨k, by rw [measureChargeTime, hk]⟩

theorem applyTrace_measureChargeTime (env : Env) (fuel m a : ℕ) (s : FixtureState) :
    applyTrace s (measureChargeTime env fuel m a).trace =
      { s with
        capChargeLevel := Level.low
        capDischargeDir := PinDir.output
        capDischargeLevel := Level.low } := by
  obtain ⟨k, hk⟩ := measureChargeTime_trace_shape env fuel m a
  rw [hk, applyTrace_append, applyTrace_append, applyTrace_append, applyTrace_replicate_analog]
  rfl

theorem measureChargeTime_reportFree (env : Env) (fuel m a : ℕ) :
    ∀ x ∈ (measureChargeTime env fuel m a).trace, isReport x = false := by
  obtain ⟨k, hk⟩ := measureChargeTime_trace_shape env fuel m a
  rw [hk]
  intro x hx
  have h1 : ∀ y ∈ dischargeTrace, isReport y = false := by decide
  have h2 : ∀ y ∈ chargeRestore, isReport y = false := by decide
  have h3 : ∀ y ∈ [Action.pinMode Pin.capDischarge PinDir.input,
      Action.digitalWrite Pin.capCharge Level.high], isReport y = false := by decide
  rcases List.mem_append.mp hx with h | h
  · rcases List.mem_append.mp h with h' | h'
    · exact h1 x h'
    · exact h3 x h'
  · rcases List.mem_append.mp h with h' | h'
    · rw [List.eq_of_mem_replicate h']
      rfl
    · exact h2 x h'

theorem measLoop_trace_grows (env : Env) (fuel : ℕ) :
    ∀ n acc, ∃ t,
      (measLoop env fuel n acc).trace = acc.trace ++ t ∧
      (∀ x ∈ t, isReport x = false) ∧
      (1 ≤ n → ∀ s : FixtureState,
        applyTrace s t =
          { s with
            capChargeLevel := Level.low
            capDischargeDir := PinDir.output
            capDischargeLevel := Level.low }) := by
  intro n
  induction n with
  | zero =>
    intro acc
    refine ⟨[], by simp [measLoop], by simp, ?_⟩
    intro h
    omega
  | succ n ih =>
    intro acc
    set r := measureChargeTime env fuel acc.mIdx acc.aIdx with hr
    obtain ⟨t, ht, htfree, htstate⟩ := ih
      { totalTime := if 0 < r.ret then (acc.totalTime + r.ret) % UINT32_MOD else acc.totalTime
        validSamples := if 0 < r.ret then acc.validSamples + 1 else acc.validSamples
        trace := acc.trace ++ r.trace ++ [Action.delayMs 10]
        mIdx := r.mIdx
        aIdx := r.aIdx }
    refine ⟨r.trace ++ [Action.delayMs 10] ++ t, ?_, ?_, ?_⟩
    · rw [measLoop, ← hr]
      simp only at ht
      rw [ht]
      simp [List.append_assoc]
    · intro x hx
      simp only [List.mem_append] at hx
      rcases hx with (hx | hx) | hx
      · exact measureChargeTime_reportFree env fuel acc.mIdx acc.aIdx x hx
      · simp only [List.mem_singleton] at hx
        subst hx
        rfl
      · exact htfree x hx
    · intro _ s
      rw [applyTrace_append, applyTrace_append, applyTrace_measureChargeTime]
      rcases Nat.eq_zero_or_pos n with hn | hn
      · have ht0 : t = [] := by
          have h2 := ht
          subst hn
          simp only [measLoop, List.self_eq_append_right] at h2
          exact h2
        rw [ht0]
        rfl
      · exact htstate hn _

theorem applyTrace_reports (p : List Action) :
    ∀ s : FixtureState, (∀ x ∈ p, isReport x = true) → applyTrace s p = s := by
  induction p with
  | nil =>
    intro s _
    rfl
  | cons x rest ih =>
    intro s hp
    have hx := hp x (List.mem_cons_self x rest)
    have hrest := fun y hy => hp y (List.mem_cons_of_mem x hy)
    cases x with
    | serialStr v => exact ih s hrest
    | serialNum v => exact ih s hrest
    | serialNat v => exact ih s hrest
    | digitalWrite pn l => simp [isReport] at hx
    | pinMode pn d => simp [isReport] at hx
    | resetCircuit => simp [isReport] at hx
    | delayMs v => simp [isReport] at hx
    | analogRead => simp [isReport] at hx

theorem measureCapacitance_trace (env : Env) (fuel m a : ℕ) :
    (measureCapacitance env fuel m a).trace =
      (measLoop env fuel CAP_NUM_SAMPLES ⟨0, 0, [], m, a⟩).trace := by
  unfold measureCapacitance
  dsimp only
  split <;> rfl

theorem core_restored (env : Env) (fuel m a : ℕ) (s : FixtureState) :
    RestoredIdle (applyTrace s
      (capSetupTrace ++ ((measureCapacitance env fuel m a).trace ++ capRestoreTrace))) := by
  obtain ⟨t, ht, -, hstate⟩ := measLoop_trace_grows env fuel CAP_NUM_SAMPLES ⟨0, 0, [], m, a⟩
  rw [measureCapacitance_trace, ht]
  rw [applyTrace_append, applyTrace_append]
  have h5 : 1 ≤ CAP_NUM_SAMPLES := by decide
  rw [show (⟨0, 0, [], m, a⟩ : MeasAcc).trace ++ t = t from rfl] at *
  rw [hstate h5]
  exact ⟨rfl, rfl, rfl, rfl, rfl, rfl, rfl, rfl⟩

theorem core_reportFree (env : Env) (fuel m a : ℕ) :
    ∀ x ∈ capSetupTrace ++ ((measureCapacitance env fuel m a).trace ++ capRestoreTrace),
      isReport x = false := by
  obtain ⟨t, ht, hfree, -⟩ := measLoop_trace_grows env fuel CAP_NUM_SAMPLES ⟨0, 0, [], m, a⟩
  have h1 : ∀ y ∈ capSetupTrace, isReport y = false := by decide
  have h2 : ∀ y ∈ capRestoreTrace, isReport y = false := by decide
  intro x hx
  rcases List.mem_append.mp hx with h | h
  · exact h1 x h
  · rcases List.mem_append.mp h with h' | h'
    · rw [measureCapacitance_trace, ht] at h'
      exact hfree x h'
    · exact h2 x h'

theorem runCapacitanceTest_split (env : Env) (fuel m a : ℕ) :
    ∃ p, (runCapacitanceTest env fuel m a).2 =
      (capSetupTrace ++ ((measureCapacitance env fuel m a).trace ++ capRestoreTrace)) ++ p ∧
      ∀ x ∈ p, isReport x = true := by
  unfold runCapacitanceTest
  dsimp only
  split
  · exact ⟨_, rfl, by intro x hx; fin_cases hx <;> rfl⟩
  · exact ⟨_, rfl, by intro x hx; fin_cases hx <;> rfl⟩

theorem runCapacitanceTest_restored (env : Env) (fuel m a : ℕ) (s : FixtureState) :
    ∃ tp pp, (runCapacitanceTest env fuel m a).2 = tp ++ pp ∧
      (∀ x ∈ tp, isReport x = false) ∧ (∀ x ∈ pp, isReport x = true) ∧
      Action.resetCircuit ∈ tp ∧ RestoredIdle (applyTrace s tp) ∧
      RestoredIdle (applyTrace s (runCapacitanceTest env fuel m a).2) := by
  obtain ⟨p, hp, hrep⟩ := runCapacitanceTest_split env fuel m a
  refine ⟨_, p, hp, core_reportFree env fuel m a, hrep, ?_, core_restored env fuel m a s, ?_⟩
  · exact List.mem_append.mpr (Or.inr (List.mem_append.mpr (Or.inr (by decide))))
  · rw [hp, applyTrace_append, applyTrace_reports p _ hrep]
    exact core_restored env fuel m a s

theorem pollLoop_low (env : Env) (st tmo : ℕ)
    (hlow : ∀ k, env.adc k < CAP_ADC_THRESHOLD) :
    ∀ fuel m a, (pollLoop env st tmo fuel m a).ret = 0 := by
  intro fuel
  induction fuel with
  | zero =>
    intro m a
    rfl
  | succ fuel ih =>
    intro m a
    unfold pollLoop
    split_ifs with hg ht
    · exact absurd ht (Nat.not_le.mpr (hlow a))
    · exact ih (m + 1) (a + 1)
    · rfl

theorem measureChargeTime_low (env : Env)
    (hlow : ∀ k, env.adc k < CAP_ADC_THRESHOLD) (fuel m a : ℕ) :
    (measureChargeTime env fuel m a).ret = 0 := by
  unfold measureChargeTime
  exact pollLoop_low env _ _ hlow fuel (m + 1) a

theorem pollLoop_cross (env : Env) (st tmo : ℕ) :
    ∀ (k fuel m a : ℕ), k < fuel →
      (∀ j, j < k → microsAt env (m + j) < tmo ∧ env.adc (a + j) < CAP_ADC_THRESHOLD) →
      microsAt env (m + k) < tmo → CAP_ADC_THRESHOLD ≤ env.adc (a + k) →
      (pollLoop env st tmo fuel m a).ret =
        (microsAt env (m + k + 1) + UINT32_MOD - st) % UINT32_MOD := by
  intro k
  induction k with
  | zero =>
    intro fuel m a hf hpre hg ht
    cases fuel with
    | zero => omega
    | succ fuel =>
      unfold pollLoop
      rw [if_pos (by simpa using hg), if_pos (by simpa using ht)]
  | succ k ih =>
    intro fuel m a hf hpre hg ht
    cases fuel with
    | zero => omega
    | succ fuel =>
      have h0 := hpre 0 (Nat.succ_pos k)
      have hg1 : microsAt env (m + 1 + k) < tmo := by
        rwa [show m + (k + 1) = m + 1 + k by omega] at hg
      have ht1 : CAP_ADC_THRESHOLD ≤ env.adc (a + 1 + k) := by
        rwa [show a + (k + 1) = a + 1 + k by omega] at ht
      have hpre1 : ∀ j, j < k →
          microsAt env (m + 1 + j) < tmo ∧ env.adc (a + 1 + j) < CAP_ADC_THRESHOLD := by
        intro j hj
        obtain ⟨ha, hb⟩ := hpre (j + 1) (by omega)
        rw [show m + (j + 1) = m + 1 + j by omega] at ha
        rw [show a + (j + 1) = a + 1 + j by omega] at hb
        exact ⟨ha, hb⟩
      have hmain := ih fuel (m + 1) (a + 1) (by omega) hpre1 hg1 ht1
      unfold pollLoop
      rw [if_pos (by simpa using h0.1), if_neg (Nat.not_le.mpr (by simpa using h0.2))]
      rw [show m + (k + 1) + 1 = m + 1 + k + 1 by omega]
      exact hmain

theorem pollLoop_guardFail (env : Env) (st tmo : ℕ) :
    ∀ (k fuel m a : ℕ), k < fuel →
      (∀ j, j < k → microsAt env (m + j) < tmo ∧ env.adc (a + j) < CAP_ADC_THRESHOLD) →
      ¬ microsAt env (m + k) < tmo →
      (pollLoop env st tmo fuel m a).ret = 0 := by
  intro k
  induction k with
  | zero =>
    intro fuel m a hf hpre hg
    cases fuel with
    | zero => omega
    | succ fuel =>
      unfold pollLoop
      rw [if_neg (by simpa using hg)]
  | succ k ih =>
    intro fuel m a hf hpre hg
    cases fuel with
    | zero => omega
    | succ fuel =>
      have h0 := hpre 0 (Nat.succ_pos k)
      have hg1 : ¬ microsAt env (m + 1 + k) < tmo := by
        rwa [show m + (k + 1) = m + 1 + k by omega] at hg
      have hpre1 : ∀ j, j < k →
          microsAt env (m + 1 + j) < tmo ∧ env.adc (a + 1 + j) < CAP_ADC_THRESHOLD := by
        intro j hj
        obtain ⟨ha, hb⟩ := hpre (j + 1) (by omega)
        rw [show m + (j + 1) = m + 1 + j by omega] at ha
        rw [show a + (j + 1) = a + 1 + j by omega] at hb
        exact ⟨ha, hb⟩
      have hmain := ih fuel (m + 1) (a + 1) (by omega) hpre1 hg1
      unfold pollLoop
      rw [if_pos (by simpa using h0.1), if_neg (Nat.not_le.mpr (by simpa using h0.2))]
      exact hmain

theorem sampleList_length (env : Env) (fuel : ℕ) :
    ∀ n m a, (sampleList env fuel n m a).length = n := by
  intro n
  induction n with
  | zero =>
    intro m a
    rfl
  | succ n ih =>
    intro m a
    unfold sampleList
    simp [ih]

theorem sampleList_low (env : Env) (fuel : ℕ)
    (hlow : ∀ k, env.adc k < CAP_ADC_THRESHOLD) :
    ∀ n m a, ∀ x ∈ sampleList env fuel n m a, x = 0 := by
  intro n
  induction n with
  | zero =>
    intro m a x hx
    cases hx
  | succ n ih =>
    intro m a x hx
    unfold sampleList at hx
    rcases List.mem_cons.mp hx with h | h
    · rw [h]
      exact measureChargeTime_low env hlow fuel m a
    · exact ih _ _ x h

theorem validTimes_nil (l : List ℕ) (h : ∀ x ∈ l, x = 0) : validTimes l = [] := by
  unfold validTimes
  refine List.filter_eq_nil_iff.mpr ?_
  intro x hx
  rw [h x hx]
  decide

theorem measureCapacitance_invalid (env : Env) (fuel m a : ℕ)
    (h : (validTimes (sampleList env fuel CAP_NUM_SAMPLES m a)).length = 0) :
    (measureCapacitance env fuel m a).result = ⟨false, 0, 0, 0⟩ := by
  have hv := (measLoop_counts env fuel CAP_NUM_SAMPLES ⟨0, 0, [], m, a⟩).1
  dsimp only at hv
  rw [h] at hv
  unfold measureCapacitance
  dsimp only
  rw [if_neg (by rw [hv]; exact lt_irrefl 0)]

theorem measureCapacitance_valid (env : Env) (fuel m a : ℕ)
    (hpos : 0 < (validTimes (sampleList env fuel CAP_NUM_SAMPLES m a)).length) :
    (measureCapacitance env fuel m a).result =
      ⟨true,
       calculateCapacitance
         (((validTimes (sampleList env fuel CAP_NUM_SAMPLES m a)).foldl
             (fun x t => (x + t) % UINT32_MOD) 0) /
           (validTimes (sampleList env fuel CAP_NUM_SAMPLES m a)).length),
       ((validTimes (sampleList env fuel CAP_NUM_SAMPLES m a)).foldl
           (fun x t => (x + t) % UINT32_MOD) 0) /
         (validTimes (sampleList env fuel CAP_NUM_SAMPLES m a)).length,
       (validTimes (sampleList env fuel CAP_NUM_SAMPLES m a)).length⟩ := by
  obtain ⟨hv, ht⟩ := measLoop_counts env fuel CAP_NUM_SAMPLES ⟨0, 0, [], m, a⟩
  dsimp only at hv ht
  rw [Nat.zero_add] at hv
  unfold measureCapacitance
  dsimp only
  rw [if_pos (by rw [hv]; exact hpos)]
  rw [hv, ht]

theorem measureCapacitance_pf_eq (env : Env) (fuel m a : ℕ) :
    (measureCapacitance env fuel m a).result.capacitance_pf =
      calculateCapacitance ((measureCapacitance env fuel m a).result.charge_time_us) := by
  unfold measureCapacitance
  dsimp only
  split_ifs with h
  · rfl
  · rfl

theorem runCapacitanceTest_invalid (env : Env) (fuel m a : ℕ)
    (h : (measureCapacitance env fuel m a).result.valid = false) :
    (runCapacitanceTest env fuel m a).1 = false ∧
    Action.serialStr (r"CAP:FAIL:TIMEOUT:No charge detected") ∈
      (runCapacitanceTest env fuel m a).2 := by
  unfold runCapacitanceTest
  simp [h]

theorem runCapacitanceTest_valid (env : Env) (fuel m a : ℕ)
    (h : (measureCapacitance env fuel m a).result.valid = true) :
    (runCapacitanceTest env fuel m a).1 =
      decide (50 ≤ (measureCapacitance env fuel m a).result.capacitance_pf ∧
        (measureCapacitance env fuel m a).result.capacitance_pf ≤ 2000) := by
  unfold runCapacitanceTest
  simp [h]

theorem calibrate_valid (env : Env) (fuel m a : ℕ)
    (h : (measureCapacitance env fuel m a).result.valid = true) :
    (calibrateStrayCapacitance env fuel m a).1 =
      some ((measureCapacitance env fuel m a).result.capacitance_pf + CAP_STRAY_PF) := by
  unfold calibrateStrayCapacitance
  simp [h]

theorem calcWith_add_back (stray : ℚ) (hs : 0 ≤ stray) (t : ℕ)
    (h : stray ≤ rawCapacitancePf (t : ℚ)) :
    calculateCapacitanceWith stray t + stray = rawCapacitancePf (t : ℚ) := by
  rcases Nat.eq_zero_or_pos t with rfl | ht
  · have hr : rawCapacitancePf ((0 : ℕ) : ℚ) = 0 := by
      rw [rawCapacitancePf_eq]
      norm_num
    rw [hr] at h
    have hz : stray = 0 := le_antisymm h hs
    rw [hz, hr]
    simp [calculateCapacitanceWith]
  · rw [calculateCapacitanceWith_eq _ _ (Nat.pos_iff_ne_zero.mp ht)]
    rw [max_eq_right (by linarith)]
    ring

/-- Claim C1: for every charge time t > 0 in microseconds,
calculateCapacitance t equals max(0, (t/1e6)/(2200000*0.693)*1e12 - 20.0)
picofarads, the raw RC-derived capacitance minus the stray offset clamped at
zero; and the timeout sentinel t = 0 yields an invalid result, not a reported
zero: a measurement whose every sample carries the sentinel has valid = false. -/
theorem claim1_calculateCapacitance_formula :
    (∀ t : ℕ, 0 < t →
      calculateCapacitance t =
        max 0 ((t : ℚ) / 1000000 / (2200000 * (693 / 1000)) * 10 ^ 12 - 20)) ∧
    (∀ (env : Env) (fuel m a : ℕ),
      (∀ x ∈ sampleList env fuel CAP_NUM_SAMPLES m a, x = 0) →
      (measureCapacitance env fuel m a).result.valid = false) := by
  constructor
  · intro t ht
    rw [calculateCapacitance, calculateCapacitanceWith_eq _ _ (Nat.pos_iff_ne_zero.mp ht)]
    norm_num [rawCapacitancePf, CAP_CHARGE_RESISTOR, CAP_STRAY_PF]
  · intro env fuel m a hall
    have h0 : validTimes (sampleList env fuel CAP_NUM_SAMPLES m a) = [] :=
      validTimes_nil _ hall
    have := measureCapacitance_invalid env fuel m a (by rw [h0]; rfl)
    rw [this]

/-- Witness for claim C1 at t = 3000 and at the all-sentinel oracle. -/
theorem claim1_witness :
    (0 < 3000 ∧
      calculateCapacitance 3000 =
        max 0 ((3000 : ℚ) / 1000000 / (2200000 * (693 / 1000)) * 10 ^ 12 - 20)) ∧
    ((∀ x ∈ sampleList envAllLow 1 CAP_NUM_SAMPLES 0 0, x = 0) ∧
      (measureCapacitance envAllLow 1 0 0).result.valid = false) :=
  ⟨⟨by decide, claim1_calculateCapacitance_formula.1 3000 (by decide)⟩,
   ⟨by decide, claim1_calculateCapacitance_formula.2 envAllLow 1 0 0 (by decide)⟩⟩

/-- Claim C2: measureCapacitance runs exactly CAP_NUM_SAMPLES = 5
discharge-charge-poll cycles, discards every zero (timed out) charge time,
averages the valid charge times, and computes the capacitance once from the
averaged time; with zero valid samples the result has valid = false. -/
theorem claim2_measureCapacitance_averaging :
    CAP_NUM_SAMPLES = 5 ∧
    ∀ (env : Env) (fuel m a : ℕ),
      (sampleList env fuel CAP_NUM_SAMPLES m a).length = 5 ∧
      (measureCapacitance env fuel m a).result.num_samples =
        (validTimes (sampleList env fuel CAP_NUM_SAMPLES m a)).length ∧
      ((validTimes (sampleList env fuel CAP_NUM_SAMPLES m a)).length = 0 →
        (measureCapacitance env fuel m a).result.valid = false) ∧
      (0 < (validTimes (sampleList env fuel CAP_NUM_SAMPLES m a)).length →
        (validTimes (sampleList env fuel CAP_NUM_SAMPLES m a)).sum < UINT32_MOD →
        (measureCapacitance env fuel m a).result.valid = true ∧
        (measureCapacitance env fuel m a).result.charge_time_us =
          (validTimes (sampleList env fuel CAP_NUM_SAMPLES m a)).sum /
            (validTimes (sampleList env fuel CAP_NUM_SAMPLES m a)).length ∧
        (measureCapacitance env fuel m a).result.capacitance_pf =
          calculateCapacitance ((measureCapacitance env fuel m a).result.charge_time_us)) := by
  refine ⟨rfl, ?_⟩
  intro env fuel m a
  refine ⟨by rw [sampleList_length]; rfl, ?_, ?_, ?_⟩
  · rcases Nat.eq_zero_or_pos (validTimes (sampleList env fuel CAP_NUM_SAMPLES m a)).length
      with h | h
    · rw [measureCapacitance_invalid env fuel m a h, h]
    · rw [measureCapacitance_valid env fuel m a h]
  · intro h
    rw [measureCapacitance_invalid env fuel m a h]
  · intro hpos hsum
    have hfold : (validTimes (sampleList env fuel CAP_NUM_SAMPLES m a)).foldl
        (fun x t => (x + t) % UINT32_MOD) 0 =
        (validTimes (sampleList env fuel CAP_NUM_SAMPLES m a)).sum := by
      rw [foldl_mod_add _ 0 UINT32_MOD_pos, Nat.zero_add, Nat.mod_eq_of_lt hsum]
    rw [measureCapacitance_valid env fuel m a hpos, hfold]
    exact ⟨rfl, rfl, rfl⟩

/-- Witness for claim C2 on the fast-charging oracle: five samples of 2
microseconds each, all valid, averaged to 2. -/
theorem claim2_witness :
    (measureCapacitance envAllHigh 1 0 0).result.valid = true ∧
    (measureCapacitance envAllHigh 1 0 0).result.charge_time_us =
      (validTimes (sampleList envAllHigh 1 CAP_NUM_SAMPLES 0 0)).sum /
        (validTimes (sampleList envAllHigh 1 CAP_NUM_SAMPLES 0 0)).length ∧
    (measureCapacitance envAllHigh 1 0 0).result.capacitance_pf =
      calculateCapacitance ((measureCapacitance envAllHigh 1 0 0).result.charge_time_us) :=
  (claim2_measureCapacitance_averaging.2 envAllHigh 1 0 0).2.2.2 (by decide) (by decide)

/-- Claim C5: when every ADC reading stays below the threshold all five
samples time out, the measurement is invalid, runCapacitanceTest reports the
line CAP:FAIL:TIMEOUT:No charge detected and returns false, and the fixture
is still restored to the idle topology before anything is reported. -/
theorem claim5_all_timeout_fail (env : Env) (fuel m a : ℕ) (s : FixtureState)
    (hlow : ∀ k, env.adc k < CAP_ADC_THRESHOLD) :
    (measureCapacitance env fuel m a).result.valid = false ∧
    (runCapacitanceTest env fuel m a).1 = false ∧
    Action.serialStr (r"CAP:FAIL:TIMEOUT:No charge detected") ∈
      (runCapacitanceTest env fuel m a).2 ∧
    ∃ tp pp, (runCapacitanceTest env fuel m a).2 = tp ++ pp ∧
      (∀ x ∈ tp, isReport x = false) ∧ (∀ x ∈ pp, isReport x = true) ∧
      Action.resetCircuit ∈ tp ∧ RestoredIdle (applyTrace s tp) ∧
      RestoredIdle (applyTrace s (runCapacitanceTest env fuel m a).2) := by
  have h0 : validTimes (sampleList env fuel CAP_NUM_SAMPLES m a) = [] :=
    validTimes_nil _ (sampleList_low env fuel hlow CAP_NUM_SAMPLES m a)
  have hinv : (measureCapacitance env fuel m a).result.valid = false := by
    rw [measureCapacitance_invalid env fuel m a (by rw [h0]; rfl)]
  obtain ⟨hfst, hmem⟩ := runCapacitanceTest_invalid env fuel m a hinv
  exact ⟨hinv, hfst, hmem, runCapacitanceTest_restored env fuel m a s⟩

/-- Witness for claim C5 on the never-crossing oracle from a scrambled
initial fixture state. -/
theorem claim5_witness :
    (measureCapacitance envAllLow 1 0 0).result.valid = false ∧
    (runCapacitanceTest envAllLow 1 0 0).1 = false ∧
    Action.serialStr (r"CAP:FAIL:TIMEOUT:No charge detected") ∈
      (runCapacitanceTest envAllLow 1 0 0).2 ∧
    RestoredIdle (applyTrace scrambledState (runCapacitanceTest envAllLow 1 0 0).2) := by
  have h := claim5_all_timeout_fail envAllLow 1 0 0 scrambledState
    (fun k => by norm_num [envAllLow, CAP_ADC_THRESHOLD])
  obtain ⟨h1, h2, h3, tp, pp, -, -, -, -, -, h4⟩ := h
  exact ⟨h1, h2, h3, h4⟩

/-- Claim C6: with a valid measurement, runCapacitanceTest returns true
exactly when the corrected capacitance lies in the inclusive 50 to 2000 pF
window; the 3000 microsecond scenario yields about 1948 pF, in range. -/
theorem claim6_range_classification :
    (∀ (env : Env) (fuel m a : ℕ),
      (measureCapacitance env fuel m a).result.valid = true →
      ((runCapacitanceTest env fuel m a).1 = true ↔
        50 ≤ (measureCapacitance env fuel m a).result.capacitance_pf ∧
        (measureCapacitance env fuel m a).result.capacitance_pf ≤ 2000)) ∧
    (50 ≤ calculateCapacitance 3000 ∧ calculateCapacitance 3000 ≤ 2000) ∧
    |calculateCapacitance 3000 - 1948| < 1 := by
  have hc : calculateCapacitance 3000 = 4949180 / 2541 := by
    rw [calculateCapacitance, calculateCapacitanceWith_eq CAP_STRAY_PF 3000 (by norm_num),
      rawCapacitancePf_eq]
    unfold CAP_STRAY_PF
    rw [max_eq_right (by norm_num)]
    norm_num
  refine ⟨?_, by rw [hc]; constructor <;> norm_num, by rw [hc, abs_lt]; constructor <;> norm_num⟩
  intro env fuel m a h
  rw [runCapacitanceTest_valid env fuel m a h]
  exact decide_eq_true_eq.to_iff

/-- Witness for claim C6 on the fast-charging oracle, whose corrected
capacitance 0 is classified out of range. -/
theorem claim6_witness :
    (measureCapacitance envAllHigh 1 0 0).result.valid = true ∧
    ((runCapacitanceTest envAllHigh 1 0 0).1 = true ↔
      50 ≤ (measureCapacitance envAllHigh 1 0 0).result.capacitance_pf ∧
      (measureCapacitance envAllHigh 1 0 0).result.capacitance_pf ≤ 2000) :=
  ⟨by decide, claim6_range_classification.1 envAllHigh 1 0 0 (by decide)⟩

/-- Counterexample to claim C7: on the fast-charging oracle the measurement
is valid with averaged charge time 2 microseconds, yet the calibration
routine reports 20 pF, not the raw value (2/1e6)/(2200000*0.693)*1e12 of
about 1.31 pF, because the zero clamp had already truncated the corrected
result. -/
theorem claim7_counterexample :
    (measureCapacitance envAllHigh 1 0 0).result.valid = true ∧
    (measureCapacitance envAllHigh 1 0 0).result.charge_time_us = 2 ∧
    (calibrateStrayCapacitance envAllHigh 1 0 0).1 = some 20 ∧
    ¬ (20 : ℚ) = (2 : ℚ) / 1000000 / (2200000 * (693 / 1000)) * 10 ^ 12 := by
  have hvalid : (measureCapacitance envAllHigh 1 0 0).result.valid = true := by decide
  have htus : (measureCapacitance envAllHigh 1 0 0).result.charge_time_us = 2 := by decide
  have hzero : (measureCapacitance envAllHigh 1 0 0).result.capacitance_pf = 0 := by
    rw [measureCapacitance_pf_eq envAllHigh 1 0 0, htus, calculateCapacitance,
      calculateCapacitanceWith_eq CAP_STRAY_PF 2 (by norm_num), rawCapacitancePf_eq]
    unfold CAP_STRAY_PF
    rw [max_eq_left (by norm_num)]
  refine ⟨hvalid, htus, ?_, by norm_num⟩
  rw [calibrate_valid envAllHigh 1 0 0 hvalid, hzero]
  norm_num [CAP_STRAY_PF]

/-- Claim C7 as amended: the calibration routine always reports the
corrected result plus the current stray offset; whenever the measurement is
valid and the averaged charge time is at least 31 microseconds (so the raw
capacitance is at least the offset and the zero clamp is inert) the reported
value is exactly (averaged t)/(2.2e6*0.693)*1e12 pF; and for any offset the
clamp does not reach, correction plus add-back round-trips to the raw
measurement independently of the prior offset, so the reported value
replaces rather than accumulates with it. -/
theorem claim7_calibration_roundtrip_amended :
    (∀ (env : Env) (fuel m a : ℕ),
      (measureCapacitance env fuel m a).result.valid = true →
      (calibrateStrayCapacitance env fuel m a).1 =
        some ((measureCapacitance env fuel m a).result.capacitance_pf + CAP_STRAY_PF)) ∧
    (∀ (env : Env) (fuel m a : ℕ),
      (measureCapacitance env fuel m a).result.valid = true →
      31 ≤ (measureCapacitance env fuel m a).result.charge_time_us →
      (calibrateStrayCapacitance env fuel m a).1 =
        some (rawCapacitancePf
          (((measureCapacitance env fuel m a).result.charge_time_us : ℕ) : ℚ))) ∧
    (∀ stray : ℚ, 0 ≤ stray → ∀ t : ℕ, stray ≤ rawCapacitancePf (t : ℚ) →
      calculateCapacitanceWith stray t + stray = rawCapacitancePf (t : ℚ)) := by
  refine ⟨?_, ?_, calcWith_add_back⟩
  · intro env fuel m a h
    exact calibrate_valid env fuel m a h
  · intro env fuel m a h h31
    rw [calibrate_valid env fuel m a h, measureCapacitance_pf_eq env fuel m a]
    have h20 : CAP_STRAY_PF ≤
        rawCapacitancePf (((measureCapacitance env fuel m a).result.charge_time_us : ℕ) : ℚ) := by
      rw [rawCapacitancePf_eq]
      unfold CAP_STRAY_PF
      have hc : (31 : ℚ) ≤ (((measureCapacitance env fuel m a).result.charge_time_us : ℕ) : ℚ) := by
        exact_mod_cast h31
      linarith
    exact congrArg some
      (calcWith_add_back CAP_STRAY_PF (by norm_num [CAP_STRAY_PF]) _ h20)

/-- Witness for claim C7 as amended: on the 40 microsecond-per-tick oracle
the averaged charge time is 80 microseconds and the calibration routine
reports exactly the raw capacitance of an 80 microsecond charge time. -/
theorem claim7_witness :
    (calibrateStrayCapacitance envSlow 1 0 0).1 = some (rawCapacitancePf (80 : ℚ)) ∧
    calculateCapacitanceWith 20 80 + 20 = rawCapacitancePf ((80 : ℕ) : ℚ) := by
  constructor
  · have h := claim7_calibration_roundtrip_amended.2.1 envSlow 1 0 0 (by decide) (by decide)
    have he : (measureCapacitance envSlow 1 0 0).result.charge_time_us = 80 := by decide
    rw [he] at h
    exact_mod_cast h
  · exact claim7_calibration_roundtrip_amended.2.2 20 (by norm_num) 80
      (by rw [rawCapacitancePf_eq]; norm_num)

/-- Counterexample to claim C8: the charge times 1 < 2 are both clamped to a
corrected capacitance of 0, so calculateCapacitance is not strictly
increasing over all positive charge times. -/
theorem claim8_counterexample :
    ((0 : ℕ) < 1 ∧ (1 : ℕ) < 2) ∧
    ¬ calculateCapacitance 1 < calculateCapacitance 2 := by
  have e1 : calculateCapacitance 1 = 0 := by
    rw [calculateCapacitance, calculateCapacitanceWith_eq CAP_STRAY_PF 1 (by norm_num),
      rawCapacitancePf_eq]
    unfold CAP_STRAY_PF
    rw [max_eq_left (by norm_num)]
  have e2 : calculateCapacitance 2 = 0 := by
    rw [calculateCapacitance, calculateCapacitanceWith_eq CAP_STRAY_PF 2 (by norm_num),
      rawCapacitancePf_eq]
    unfold CAP_STRAY_PF
    rw [max_eq_left (by norm_num)]
  refine ⟨⟨Nat.zero_lt_one, Nat.one_lt_two⟩, ?_⟩
  rw [e1, e2]
  exact lt_irrefl 0

/-- Claim C8 as amended: calculateCapacitance is strictly increasing in the
charge time as soon as the larger time is at least 31 microseconds, the
point past which the raw capacitance exceeds the stray offset and the zero
clamp no longer flattens the result; below it both values can clamp to 0. -/
theorem claim8_monotone_amended (t1 t2 : ℕ) (h1 : 0 < t1) (h12 : t1 < t2)
    (h31 : 31 ≤ t2) :
    calculateCapacitance t1 < calculateCapacitance t2 := by
  have hne1 : t1 ≠ 0 := Nat.pos_iff_ne_zero.mp h1
  have hne2 : t2 ≠ 0 := by omega
  rw [calculateCapacitance, calculateCapacitance, calculateCapacitanceWith_eq _ _ hne1,
    calculateCapacitanceWith_eq _ _ hne2]
  have hq : (t1 : ℚ) < (t2 : ℚ) := by exact_mod_cast h12
  have hr : rawCapacitancePf (t1 : ℚ) < rawCapacitancePf (t2 : ℚ) :=
    rawCapacitancePf_strictMono hq
  have h2pos : CAP_STRAY_PF < rawCapacitancePf (t2 : ℚ) := by
    rw [rawCapacitancePf_eq]
    unfold CAP_STRAY_PF
    have hc : (31 : ℚ) ≤ (t2 : ℚ) := by exact_mod_cast h31
    linarith
  rw [max_eq_right (by linarith : (0 : ℚ) ≤ rawCapacitancePf (t2 : ℚ) - CAP_STRAY_PF)]
  rcases le_or_lt (rawCapacitancePf (t1 : ℚ) - CAP_STRAY_PF) 0 with hc | hc
  · rw [max_eq_left hc]
    linarith
  · rw [max_eq_right (le_of_lt hc)]
    linarith

/-- Witness for claim C8 as amended at the pair (1, 31). -/
theorem claim8_witness : calculateCapacitance 1 < calculateCapacitance 31 :=
  claim8_monotone_amended 1 31 (by decide) (by decide) (by decide)

/-- Claim C3: on every exit path of runCapacitanceTest the fixture returns
exactly to the idle topology before any result is reported: the trace splits
into a report-free part, which contains the resetCircuit invocation and
leaves the charge pin low, the discharge pin output low and both continuity
pins output low from any initial state, followed by serial reporting only;
the full trace leaves the same restored state. -/
theorem claim3_restore_invariant (env : Env) (fuel m a : ℕ) (s : FixtureState) :
    ∃ tp pp, (runCapacitanceTest env fuel m a).2 = tp ++ pp ∧
      (∀ x ∈ tp, isReport x = false) ∧ (∀ x ∈ pp, isReport x = true) ∧
      Action.resetCircuit ∈ tp ∧
      RestoredIdle (applyTrace s tp) ∧
      RestoredIdle (applyTrace s (runCapacitanceTest env fuel m a).2) :=
  runCapacitanceTest_restored env fuel m a s

/-- Claim C4: measureChargeTime first discharges, sets the discharge pin to
high-impedance input, records the start time, drives the charge pin high,
and then polls; the threshold is the fixed ADC code 512 and the timeout is
100000 microseconds past the start; when the k-th poll is the first to reach
the threshold inside the deadline the function returns the elapsed 32-bit
microsecond difference, and when the deadline passes first it returns 0. -/
theorem claim4_measureChargeTime_poll :
    CAP_ADC_THRESHOLD = 512 ∧ CAP_TIMEOUT_US = 100000 ∧
    ∀ (env : Env) (fuel m a : ℕ),
      (∃ rest, (measureChargeTime env fuel m a).trace =
        dischargeTrace ++
          [Action.pinMode Pin.capDischarge PinDir.input,
           Action.digitalWrite Pin.capCharge Level.high] ++ rest) ∧
      (∀ k, k < fuel →
        (∀ j, j < k →
          microsAt env (m + 1 + j) < (microsAt env m + CAP_TIMEOUT_US) % UINT32_MOD ∧
          env.adc (a + j) < CAP_ADC_THRESHOLD) →
        microsAt env (m + 1 + k) < (microsAt env m + CAP_TIMEOUT_US) % UINT32_MOD →
        CAP_ADC_THRESHOLD ≤ env.adc (a + k) →
        (measureChargeTime env fuel m a).ret =
          (microsAt env (m + 1 + k + 1) + UINT32_MOD - microsAt env m) % UINT32_MOD) ∧
      (∀ k, k < fuel →
        (∀ j, j < k →
          microsAt env (m + 1 + j) < (microsAt env m + CAP_TIMEOUT_US) % UINT32_MOD ∧
          env.adc (a + j) < CAP_ADC_THRESHOLD) →
        ¬ microsAt env (m + 1 + k) < (microsAt env m + CAP_TIMEOUT_US) % UINT32_MOD →
        (measureChargeTime env fuel m a).ret = 0) := by
  refine ⟨rfl, rfl, ?_⟩
  intro env fuel m a
  refine ⟨?_, ?_, ?_⟩
  · obtain ⟨k, hk⟩ := measureChargeTime_trace_shape env fuel m a
    exact ⟨_, hk⟩
  · intro k hk hpre hg ht
    exact pollLoop_cross env (microsAt env m) ((microsAt env m + CAP_TIMEOUT_US) % UINT32_MOD)
      k fuel (m + 1) a hk hpre hg ht
  · intro k hk hpre hg
    exact pollLoop_guardFail env (microsAt env m)
      ((microsAt env m + CAP_TIMEOUT_US) % UINT32_MOD) k fuel (m + 1) a hk hpre hg

/-- Witness for claim C4: a first-poll crossing on the one-tick oracle gives
the elapsed time of 2 microseconds, and a fast clock whose first guard is
already past the deadline gives the timeout return 0. -/
theorem claim4_witness :
    (measureChargeTime envAllHigh 1 0 0).ret =
      (microsAt envAllHigh 2 + UINT32_MOD - microsAt envAllHigh 0) % UINT32_MOD ∧
    (measureChargeTime envLate 1 0 0).ret = 0 := by
  constructor
  · have h := (claim4_measureChargeTime_poll.2.2 envAllHigh 1 0 0).2.1 0 (by decide)
      (fun j hj => absurd hj (Nat.not_lt_zero j)) (by decide) (by decide)
    simpa using h
  · exact (claim4_measureChargeTime_poll.2.2 envLate 1 0 0).2.2 0 (by decide)
      (fun j hj => absurd hj (Nat.not_lt_zero j)) (by decide)

/-- Claim C9: when the start timestamp lies within CAP_TIMEOUT_US of the
32-bit wrap, the deadline startTime + 100000 wraps below the start, so if
the clock has not yet wrapped at the first guard the loop body never runs:
measureChargeTime returns 0 spuriously with no ADC sample in its trace. -/
theorem claim9_wraparound_timeout (env : Env) (fuel m a : ℕ)
    (hfuel : 0 < fuel)
    (hnear : UINT32_MOD - CAP_TIMEOUT_US ≤ microsAt env m)
    (hmono : microsAt env m ≤ microsAt env (m + 1)) :
    (microsAt env m + CAP_TIMEOUT_US) % UINT32_MOD < microsAt env m ∧
    (measureChargeTime env fuel m a).ret = 0 ∧
    (measureChargeTime env fuel m a).trace.count Action.analogRead = 0 := by
  have hstart : microsAt env m < UINT32_MOD := Nat.mod_lt _ UINT32_MOD_pos
  have hT : CAP_TIMEOUT_US = 100000 := rfl
  have hM : UINT32_MOD = 4294967296 := rfl
  have h1 : UINT32_MOD ≤ microsAt env m + CAP_TIMEOUT_US := by omega
  have htmo : (microsAt env m + CAP_TIMEOUT_US) % UINT32_MOD =
      microsAt env m + CAP_TIMEOUT_US - UINT32_MOD := by
    rw [Nat.mod_eq_sub_mod h1, Nat.mod_eq_of_lt (by omega)]
  have hlt : (microsAt env m + CAP_TIMEOUT_US) % UINT32_MOD < microsAt env m := by omega
  have hng : ¬ microsAt env (m + 1) < (microsAt env m + CAP_TIMEOUT_US) % UINT32_MOD := by
    omega
  obtain ⟨f, rfl⟩ : ∃ f, fuel = f + 1 := ⟨fuel - 1, by omega⟩
  have hstruct : measureChargeTime env (f + 1) m a =
      ⟨0,
       dischargeTrace ++
         [Action.pinMode Pin.capDischarge PinDir.input,
          Action.digitalWrite Pin.capCharge Level.high] ++ chargeRestore,
       m + 2, a⟩ := by
    unfold measureChargeTime pollLoop
    dsimp only
    rw [if_neg hng]
  rw [hstruct]
  exact ⟨hlt, rfl, rfl⟩

/-- Witness for claim C9 on the oracle whose clock starts 50000 microseconds
before the wrap. -/
theorem claim9_witness :
    (microsAt envWrap 0 + CAP_TIMEOUT_US) % UINT32_MOD < microsAt envWrap 0 ∧
    (measureChargeTime envWrap 1 0 0).ret = 0 ∧
    (measureChargeTime envWrap 1 0 0).trace.count Action.analogRead = 0 :=
  claim9_wraparound_timeout envWrap 1 0 0 (by decide) (by decide) (by decide)

/-- Claim C10: a threshold crossing whose elapsed time is 0 microseconds
makes measureChargeTime return 0, the same value as the timeout exit, and
measureCapacitance then discards the sample as timed out: one loop step over
a 0 return leaves both the valid-sample count and the running total
unchanged. -/
theorem claim10_zero_elapsed_sentinel :
    (∀ (env : Env) (fuel m a : ℕ), 0 < fuel →
      microsAt env (m + 1) < (microsAt env m + CAP_TIMEOUT_US) % UINT32_MOD →
      CAP_ADC_THRESHOLD ≤ env.adc a →
      microsAt env (m + 2) = microsAt env m →
      (measureChargeTime env fuel m a).ret = 0) ∧
    (∀ (env : Env) (fuel m a : ℕ),
      (∀ k, env.adc k < CAP_ADC_THRESHOLD) →
      (measureChargeTime env fuel m a).ret = 0) ∧
    (∀ (env : Env) (fuel : ℕ) (acc : MeasAcc),
      (measureChargeTime env fuel acc.mIdx acc.aIdx).ret = 0 →
      (measLoop env fuel 1 acc).validSamples = acc.validSamples ∧
      (measLoop env fuel 1 acc).totalTime = acc.totalTime) := by
  refine ⟨?_, ?_, ?_⟩
  · intro env fuel m a hfuel hg ht hfrozen
    have h := pollLoop_cross env (microsAt env m)
      ((microsAt env m + CAP_TIMEOUT_US) % UINT32_MOD) 0 fuel (m + 1) a hfuel
      (fun j hj => absurd hj (Nat.not_lt_zero j)) (by simpa using hg) (by simpa using ht)
    have hret : (measureChargeTime env fuel m a).ret =
        (microsAt env (m + 2) + UINT32_MOD - microsAt env m) % UINT32_MOD := by
      simpa [show m + 1 + 0 + 1 = m + 2 by omega] using h
    rw [hret, hfrozen]
    have hx : microsAt env m ≤ UINT32_MOD := le_of_lt (Nat.mod_lt _ UINT32_MOD_pos)
    rw [show microsAt env m + UINT32_MOD - microsAt env m = UINT32_MOD by omega]
    exact Nat.mod_self UINT32_MOD
  · intro env fuel m a hlow
    exact measureChargeTime_low env hlow fuel m a
  · intro env fuel acc hret
    constructor
    · simp [measLoop, hret]
    · simp [measLoop, hret]

/-- Witness for claim C10 on the frozen-clock oracle: the crossing at zero
elapsed time returns the sentinel 0 and one sampling-loop step over it
leaves the valid-sample count at zero. -/
theorem claim10_witness :
    (measureChargeTime envFrozen 1 0 0).ret = 0 ∧
    (measLoop envFrozen 1 1 ⟨0, 0, [], 0, 0⟩).validSamples = 0 ∧
    (measLoop envFrozen 1 1 ⟨0, 0, [], 0, 0⟩).totalTime = 0 := by
  have h1 := claim10_zero_elapsed_sentinel.1 envFrozen 1 0 0 (by decide) (by decide)
    (by decide) (by decide)
  have h3 := claim10_zero_elapsed_sentinel.2.2 envFrozen 1 ⟨0, 0, [], 0, 0⟩ h1
  exact ⟨h1, h3.1, h3.2⟩

end Greenlight

